import Mathlib

/-!
Verification development for the rule-based analysis core of
Project Samarth (src/project_samarth_live.py, class LocalLLM).

The embedding translates the Python source into Lean:
a pandas DataFrame becomes a list of column names plus a list of rows of
cells; a cell is a string, a decimal number (mantissa times a power of
ten, mirroring the decimal rendering of numeric values), or the missing
value NaN; fallible code is modelled with Except / Option.  Machine
floats are idealised as exact decimals rendered without scientific
notation; nothing any claim touches depends on binary float artifacts.
-/

namespace Samarth

/-- A dataset cell: a number (mantissa m and exponent e denoting m / 10^e,
mirroring decimal rendering of pandas numeric cells), a raw string, or the
missing value (NaN). -/
inductive Cell where
  | num (m : Int) (e : Nat)
  | str (s : String)
  | null
deriving DecidableEq, Repr

/-- A DataFrame: column names and rows of cells.  Mirrors the frame built
from the fetched records. -/
structure Df where
  cols : List String
  rows : List (List Cell)
deriving DecidableEq, Repr

/-- Well-formedness: every row has one cell per column (the record-shape
invariant of the data model). -/
def Df.WF (df : Df) : Prop := ∀ r ∈ df.rows, r.length = df.cols.length

instance (df : Df) : Decidable df.WF := by
  unfold Df.WF; infer_instance

/- ----------------------------------------------------------------
   Character and string helpers (models of the Python str operations
   used by the source: lower, strip, substring membership).
   ---------------------------------------------------------------- -/

/-- Substring scan over character lists: true when the needle occurs as a
contiguous run of the haystack. -/
def strInAux (n : List Char) : List Char → Bool
  | [] => n.isEmpty
  | c :: t => n.isPrefixOf (c :: t) || strInAux n t

/-- Model of the Python substring test `n in h`. -/
def strIn (n h : String) : Bool := strInAux n.data h.data

/-- Model of Python str.lower (ASCII case folding, which covers every
string the source compares). -/
def lowerStr (s : String) : String := String.mk (s.data.map Char.toLower)

def isSpaceCh (c : Char) : Bool := c == ' ' || c == '\t' || c == '\n' || c == '\r'

/-- Model of Python str.strip on a character list. -/
def trimChars (l : List Char) : List Char :=
  ((l.dropWhile isSpaceCh).reverse.dropWhile isSpaceCh).reverse

/-- The normalisation `col.lower().strip()` applied to a column name in
LocalLLM._find_col, as a character list. -/
def normChars (s : String) : List Char := trimChars (s.data.map Char.toLower)

/- ----------------------------------------------------------------
   Column resolver (LocalLLM.__init__ alias table and _find_col).
   ---------------------------------------------------------------- -/

/-- The alias table self.column_aliases from LocalLLM.__init__. -/
def columnAliases : List (String × List String) :=
  [ ("state", ["state", "statename", "state_name"]),
    ("district", ["district", "districtname", "district_name"]),
    ("year", ["year", "year_code", "financial_year"]),
    ("crop", ["crop", "crop_name", "commodity"]),
    ("production", ["production", "production_volume_tonnes",
                    "production_metric_tonnes", "value", "yield"]),
    ("rainfall", ["rainfall", "avg_annual_rainfall_mm", "actual_rainfall",
                  "rainfall_mm"]) ]

/-- Model of `self.column_aliases.get(col_type, [])`. -/
def aliasesFor (fld : String) : List String :=
  ((columnAliases.find? (fun p => p.1 == fld)).map Prod.snd).getD []

/-- The nested loop of LocalLLM._find_col: outer loop over aliases, inner
scan over columns, returning the first column whose lowered-trimmed name
equals the alias. -/
def findColAux : List String → List String → Option String
  | [], _ => none
  | a :: rest, cols =>
    match cols.find? (fun c => normChars c == a.data) with
    | some c => some c
    | none => findColAux rest cols

/-- LocalLLM._find_col. -/
def findCol (df : Df) (fld : String) : Option String :=
  findColAux (aliasesFor fld) df.cols

/-- Loop characterisation of findColAux: it returns none exactly when no
alias matches any column, and a returned column is the first column
matching the earliest alias that matches anything. -/
theorem findColAux_spec (als cols : List String) :
    (findColAux als cols = none ↔
      ∀ a ∈ als, ∀ c ∈ cols, ¬ (normChars c == a.data) = true) ∧
    (∀ r, findColAux als cols = some r →
      r ∈ cols ∧
      ∃ pre a post, als = pre ++ a :: post ∧
        cols.find? (fun c => normChars c == a.data) = some r ∧
        ∀ b ∈ pre, ∀ c ∈ cols, ¬ (normChars c == b.data) = true) := by
  induction als with
  | nil =>
    constructor
    · simp [findColAux]
    · intro r h; simp [findColAux] at h
  | cons a rest ih =>
    rcases h : cols.find? (fun c => normChars c == a.data) with _ | c₀
    · have hnone : ∀ c ∈ cols, ¬ (normChars c == a.data) = true := by
        intro c hc
        exact List.find?_eq_none.mp h c hc
      constructor
      · rw [show findColAux (a :: rest) cols = findColAux rest cols by
          simp [findColAux, h]]
        rw [ih.1]
        constructor
        · intro hall b hb c hc
          rcases List.mem_cons.mp hb with rfl | hb'
          · exact hnone c hc
          · exact hall b hb' c hc
        · intro hall b hb c hc
          exact hall b (List.mem_cons_of_mem a hb) c hc
      · intro r hr
        rw [show findColAux (a :: rest) cols = findColAux rest cols by
          simp [findColAux, h]] at hr
        obtain ⟨hmem, pre, b, post, hsplit, hfind, hpre⟩ := ih.2 r hr
        refine ⟨hmem, a :: pre, b, post, by rw [hsplit]; rfl, hfind, ?_⟩
        intro x hx c hc
        rcases List.mem_cons.mp hx with rfl | hx'
        · exact hnone c hc
        · exact hpre x hx' c hc
    · have heq : findColAux (a :: rest) cols = some c₀ := by
        simp [findColAux, h]
      constructor
      · rw [heq]
        constructor
        · intro hcontra; exact absurd hcontra (by simp)
        · intro hall
          have h1 := List.find?_some h
          have h2 := List.mem_of_find?_eq_some h
          exact absurd h1 (hall a (List.mem_cons_self a rest) c₀ h2)
      · intro r hr
        rw [heq] at hr
        injection hr with hr
        subst hr
        refine ⟨List.mem_of_find?_eq_some h, [], a, rest, rfl, h, ?_⟩
        intro b hb; exact absurd hb (List.not_mem_nil b)

/-- C3: the column resolver iterates the alias list of the semantic field
in priority order, scans columns with case-insensitive whitespace-trimmed
equality, returns the first column of the first alias that matches
anything (alias order beats column order), and returns none when no alias
matches any column; it is a total function (never throws). -/
theorem find_col_resolves_by_alias_priority (df : Df) (fld : String) :
    (findCol df fld = none ↔
      ∀ a ∈ aliasesFor fld, ∀ c ∈ df.cols, ¬ (normChars c == a.data) = true) ∧
    (∀ r, findCol df fld = some r →
      r ∈ df.cols ∧
      ∃ pre a post, aliasesFor fld = pre ++ a :: post ∧
        df.cols.find? (fun c => normChars c == a.data) = some r ∧
        ∀ b ∈ pre, ∀ c ∈ df.cols, ¬ (normChars c == b.data) = true) :=
  findColAux_spec (aliasesFor fld) df.cols

/-- Concrete instantiation of the resolver theorem: on a dataset whose
columns are Foo and a padded mixed-case State, the state field resolves to
that column, and the resolver theorem recovers the matching alias split. -/
theorem find_col_resolves_by_alias_priority_witness :
    ∃ pre a post, aliasesFor "state" = pre ++ a :: post ∧
      (["Foo", " State "].find? (fun c => normChars c == a.data)) = some " State " ∧
      ∀ b ∈ pre, ∀ c ∈ ["Foo", " State "], ¬ (normChars c == b.data) = true :=
  ((find_col_resolves_by_alias_priority ⟨["Foo", " State "], []⟩ "state").2
    " State " (by decide)).2

/-- C10: a semantic field outside the configured alias map resolves to
none on every dataset (the dict .get default makes the alias list empty),
rather than raising an error. -/
theorem find_col_unknown_field_none (df : Df) (fld : String)
    (h : columnAliases.find? (fun p => p.1 == fld) = none) :
    findCol df fld = none := by
  unfold findCol aliasesFor
  rw [h]
  rfl

/-- Concrete instantiation: the field tax is not in the alias map, and the
resolver returns none on a dataset that even has a tax column. -/
theorem find_col_unknown_field_none_witness :
    findCol ⟨["tax"], []⟩ "tax" = none :=
  find_col_unknown_field_none ⟨["tax"], []⟩ "tax" (by decide)

/- ----------------------------------------------------------------
   Numeric normalizer (LocalLLM._clean_numeric): pd.to_numeric with
   errors coerce, after casting the series to str and replacing every
   character outside digits and dot by nothing.
   Per cell: render to text, strip every character that is not an ASCII
   digit or a dot, then parse as a decimal number; empty or unparseable
   text coerces to the missing value.
   ---------------------------------------------------------------- -/

def digitVal (c : Char) : Nat := c.toNat - 48

def digChar (d : Nat) : Char := Char.ofNat (48 + d)

/-- Decimal value of a digit string, most significant first. -/
def digitsVal (l : List Char) : Nat :=
  l.foldl (fun a c => 10 * a + digitVal c) 0

/-- Fuel-driven decimal digit expansion of a natural number. -/
def natDigitsF : Nat → Nat → List Char
  | 0, _ => []
  | f + 1, n =>
    if n < 10 then [digChar n]
    else natDigitsF f (n / 10) ++ [digChar (n % 10)]

/-- Decimal digits of a natural number, most significant first. -/
def natDigits (n : Nat) : List Char := natDigitsF (n + 1) n

/-- Characters kept by the replace pattern: ASCII digits and the dot. -/
def isNumCh (c : Char) : Bool := c.isDigit || c == '.'

/-- Left-pad a digit list with zeros up to length k. -/
def padZeros (k : Nat) (l : List Char) : List Char :=
  List.replicate (k - l.length) '0' ++ l

/-- Decimal text of the number m / 10^e, mirroring the plain (non
scientific) rendering of numeric cells by astype(str). -/
def renderChars (m : Int) (e : Nat) : List Char :=
  (if m < 0 then ['-'] else []) ++
  (if e = 0 then natDigits m.natAbs
   else
     (padZeros (e + 1) (natDigits m.natAbs)).take
         ((padZeros (e + 1) (natDigits m.natAbs)).length - e) ++
       '.' :: (padZeros (e + 1) (natDigits m.natAbs)).drop
         ((padZeros (e + 1) (natDigits m.natAbs)).length - e))

/-- Textual rendering of a cell by astype(str): strings as themselves,
numbers in decimal, the missing value as nan. -/
def cellChars : Cell → List Char
  | Cell.num m e => renderChars m e
  | Cell.str s => s.data
  | Cell.null => ['n', 'a', 'n']

/-- Parse a digits-and-dots string as a decimal number (mantissa and
exponent), as pd.to_numeric with errors coerce does after the strip:
no digit or more than one dot yields the missing value. -/
def parseDec (s : List Char) : Option (Nat × Nat) :=
  if s.count '.' = 0 then
    if s.isEmpty then none else some (digitsVal s, 0)
  else if s.count '.' = 1 then
    if (s.takeWhile (fun c => !(c == '.'))).isEmpty &&
        ((s.dropWhile (fun c => !(c == '.'))).tail).isEmpty then none
    else
      some (digitsVal (s.takeWhile (fun c => !(c == '.')) ++
              (s.dropWhile (fun c => !(c == '.'))).tail),
            ((s.dropWhile (fun c => !(c == '.'))).tail).length)
  else none

/-- LocalLLM._clean_numeric on one cell. -/
def cleanCell (c : Cell) : Option (Nat × Nat) :=
  parseDec ((cellChars c).filter isNumCh)

/-- Re-embed a normalizer result as a cell (a parsed number becomes a
numeric cell, missing becomes NaN), as the assignment back into the frame
does. -/
def embedCell : Option (Nat × Nat) → Cell
  | none => Cell.null
  | some (m, e) => Cell.num (Int.ofNat m) e

/-- Rational value of a parsed mantissa-exponent pair. -/
def ratOfParsed (p : Nat × Nat) : Rat := (p.1 : Rat) / 10 ^ p.2

/-- Rational value of a numeric cell. -/
def cellRat : Cell → Option Rat
  | Cell.num m e => some ((m : Rat) / 10 ^ e)
  | _ => none

/-- Cell rendered as a string (used by the markdown output). -/
def cellToStr (c : Cell) : String := String.mk (cellChars c)

/- Digit arithmetic lemmas. -/

lemma digitVal_digChar (d : Nat) (h : d < 10) : digitVal (digChar d) = d := by
  interval_cases d <;> decide

lemma isDigit_digChar (d : Nat) (h : d < 10) : (digChar d).isDigit = true := by
  interval_cases d <;> decide

lemma not_dot_of_isDigit (c : Char) (h : c.isDigit = true) : (c == '.') = false := by
  cases hb : (c == '.') with
  | false => rfl
  | true =>
    have hc : c = '.' := eq_of_beq hb
    subst hc
    exact absurd h (by decide)

lemma isNumCh_of_isDigit (c : Char) (h : c.isDigit = true) : isNumCh c = true := by
  simp [isNumCh, h]

lemma isEmpty_false_of_ne_nil {α : Type} {l : List α} (h : l ≠ []) :
    l.isEmpty = false := by
  cases l with
  | nil => exact absurd rfl h
  | cons x xs => rfl

lemma digitsVal_append_digit (l : List Char) (c : Char) :
    digitsVal (l ++ [c]) = 10 * digitsVal l + digitVal c := by
  unfold digitsVal
  rw [List.foldl_append, List.foldl_cons, List.foldl_nil]

lemma foldl_zeros (k : Nat) :
    List.foldl (fun a c => 10 * a + digitVal c) 0 (List.replicate k '0') = 0 := by
  induction k with
  | zero => rfl
  | succ k ih => rw [List.replicate_succ, List.foldl_cons]; exact ih

lemma digitsVal_replicate_zeros (k : Nat) (l : List Char) :
    digitsVal (List.replicate k '0' ++ l) = digitsVal l := by
  unfold digitsVal
  rw [List.foldl_append, foldl_zeros]

lemma natDigitsF_spec (f : Nat) : ∀ n, n < f →
    digitsVal (natDigitsF f n) = n ∧ natDigitsF f n ≠ [] ∧
      ∀ c ∈ natDigitsF f n, c.isDigit = true := by
  induction f with
  | zero => intro n h; omega
  | succ f ih =>
    intro n h
    by_cases h10 : n < 10
    · rw [show natDigitsF (f + 1) n = [digChar n] by simp [natDigitsF, h10]]
      refine ⟨?_, by simp, ?_⟩
      · have h1 : digitsVal [digChar n] = 10 * 0 + digitVal (digChar n) := rfl
        rw [h1, digitVal_digChar n h10]
        omega
      · intro c hc
        rw [List.mem_singleton.mp hc]
        exact isDigit_digChar n h10
    · rw [show natDigitsF (f + 1) n =
            natDigitsF f (n / 10) ++ [digChar (n % 10)] by simp [natDigitsF, h10]]
      have hrec : n / 10 < f := by omega
      obtain ⟨hv, hne, hd⟩ := ih (n / 10) hrec
      have hm : n % 10 < 10 := by omega
      refine ⟨?_, by simp, ?_⟩
      · rw [digitsVal_append_digit, hv, digitVal_digChar _ hm]
        omega
      · intro c hc
        rcases List.mem_append.mp hc with hc1 | hc2
        · exact hd c hc1
        · rw [List.mem_singleton.mp hc2]
          exact isDigit_digChar _ hm

lemma natDigits_spec (n : Nat) :
    digitsVal (natDigits n) = n ∧ natDigits n ≠ [] ∧
      ∀ c ∈ natDigits n, c.isDigit = true :=
  natDigitsF_spec (n + 1) n (Nat.lt_succ_self n)

lemma count_dot_zero (l : List Char) (h : ∀ c ∈ l, c.isDigit = true) :
    l.count '.' = 0 := by
  rw [List.count_eq_zero]
  intro hmem
  exact absurd (h _ hmem) (by decide)

lemma scanSplit (A B : List Char) (h : ∀ c ∈ A, (c == '.') = false) :
    (A ++ '.' :: B).takeWhile (fun c => !(c == '.')) = A ∧
      (A ++ '.' :: B).dropWhile (fun c => !(c == '.')) = '.' :: B := by
  induction A with
  | nil => constructor <;> simp [List.takeWhile, List.dropWhile]
  | cons x xs ih =>
    have hx : (x == '.') = false := h x (List.mem_cons_self x xs)
    have ih' := ih (fun c hc => h c (List.mem_cons_of_mem x hc))
    constructor
    · rw [List.cons_append, List.takeWhile_cons, hx]
      simp [ih'.1]
    · rw [List.cons_append, List.dropWhile_cons, hx]
      simp [ih'.2]

lemma filter_isNumCh_of_all (l : List Char) (h : ∀ c ∈ l, isNumCh c = true) :
    l.filter isNumCh = l :=
  List.filter_eq_self.mpr h

lemma parseDec_digits (l : List Char) (h : ∀ c ∈ l, c.isDigit = true)
    (hne : l ≠ []) : parseDec l = some (digitsVal l, 0) := by
  unfold parseDec
  rw [count_dot_zero l h, if_pos rfl, isEmpty_false_of_ne_nil hne]
  rfl

lemma parseDec_split (A B : List Char) (hA : ∀ c ∈ A, c.isDigit = true)
    (hB : ∀ c ∈ B, c.isDigit = true) (hAne : A ≠ []) :
    parseDec (A ++ '.' :: B) = some (digitsVal (A ++ B), B.length) := by
  have hAd : ∀ c ∈ A, (c == '.') = false :=
    fun c hc => not_dot_of_isDigit c (hA c hc)
  have hcount : (A ++ '.' :: B).count '.' = 1 := by
    rw [List.count_append, count_dot_zero A hA, List.count_cons_self,
      count_dot_zero B hB]
  obtain ⟨htake, hdrop⟩ := scanSplit A B hAd
  unfold parseDec
  rw [hcount, if_neg (by omega), if_pos rfl, htake, hdrop]
  rw [isEmpty_false_of_ne_nil hAne]
  rfl

lemma parseDec_render (n e : Nat) :
    parseDec (List.filter isNumCh (renderChars (Int.ofNat n) e)) = some (n, e) := by
  have hsign : ¬ ((Int.ofNat n) < 0) := by
    show ¬ ((n : Int) < 0)
    omega
  have habs : (Int.ofNat n).natAbs = n := rfl
  obtain ⟨hval, hne, hdig⟩ := natDigits_spec n
  by_cases he : e = 0
  · subst he
    have hrender : renderChars (Int.ofNat n) 0 = natDigits n := by
      unfold renderChars
      rw [if_neg hsign, if_pos rfl, habs, List.nil_append]
    rw [hrender, filter_isNumCh_of_all _ (fun c hc => isNumCh_of_isDigit c (hdig c hc)),
      parseDec_digits _ hdig hne, hval]
  · have hpdig : ∀ c ∈ padZeros (e + 1) (natDigits n), c.isDigit = true := by
      intro c hc
      rcases List.mem_append.mp hc with hc1 | hc2
      · rw [List.eq_of_mem_replicate hc1]; decide
      · exact hdig c hc2
    have hplen : e + 1 ≤ (padZeros (e + 1) (natDigits n)).length := by
      unfold padZeros
      rw [List.length_append, List.length_replicate]
      omega
    set p := padZeros (e + 1) (natDigits n) with hp
    set t := p.length - e with ht
    have hAlen : (p.take t).length = t := by
      rw [List.length_take]
      omega
    have hAne : p.take t ≠ [] := by
      apply List.ne_nil_of_length_pos
      rw [hAlen]
      omega
    have hAdig : ∀ c ∈ p.take t, c.isDigit = true :=
      fun c hc => hpdig c (List.take_subset t p hc)
    have hBdig : ∀ c ∈ p.drop t, c.isDigit = true :=
      fun c hc => hpdig c (List.drop_subset t p hc)
    have hrender : renderChars (Int.ofNat n) e =
        p.take t ++ '.' :: p.drop t := by
      unfold renderChars
      rw [if_neg hsign, if_neg he, habs, List.nil_append]
    have hall : ∀ c ∈ p.take t ++ '.' :: p.drop t, isNumCh c = true := by
      intro c hc
      rcases List.mem_append.mp hc with hc1 | hc2
      · exact isNumCh_of_isDigit c (hAdig c hc1)
      · rcases List.mem_cons.mp hc2 with rfl | hc3
        · decide
        · exact isNumCh_of_isDigit c (hBdig c hc3)
    rw [hrender, filter_isNumCh_of_all _ hall,
      parseDec_split _ _ hAdig hBdig hAne, List.take_append_drop]
    have hpv : digitsVal p = n := by
      rw [hp]
      unfold padZeros
      rw [digitsVal_replicate_zeros, hval]
    have hBlen : (p.drop t).length = e := by
      rw [List.length_drop]
      omega
    rw [hpv, hBlen]

lemma cleanCell_num_nonneg (n e : Nat) :
    cleanCell (Cell.num (Int.ofNat n) e) = some (n, e) := by
  unfold cleanCell cellChars
  exact parseDec_render n e

lemma cleanCell_null : cleanCell Cell.null = none := by decide

/-- C4 (amended): the normalizer is idempotent; it is a no-op pass-through
on every already-numeric NON-NEGATIVE value (the strip deletes a minus
sign, so negative numbers are not passed through); the rupee example
parses to 1234.50; empty and dash inputs coerce to missing. -/
theorem clean_numeric_idempotent_and_examples :
    (∀ c : Cell, cleanCell (embedCell (cleanCell c)) = cleanCell c) ∧
    (∀ (m e : Nat), cleanCell (Cell.num (Int.ofNat m) e) = some (m, e)) ∧
    cleanCell (Cell.str "₹1,234.50 Cr") = some (123450, 2) ∧
    Option.map ratOfParsed (cleanCell (Cell.str "₹1,234.50 Cr")) =
      some (1234.5 : Rat) ∧
    cleanCell (Cell.str "") = none ∧ cleanCell (Cell.str "-") = none := by
  have hr : cleanCell (Cell.str "₹1,234.50 Cr") = some (123450, 2) := by decide
  refine ⟨?_, cleanCell_num_nonneg, hr, ?_, by decide, by decide⟩
  · intro c
    rcases h : cleanCell c with _ | ⟨m, e⟩
    · rw [show embedCell none = Cell.null from rfl, cleanCell_null]
    · rw [show embedCell (some (m, e)) = Cell.num (Int.ofNat m) e from rfl,
        cleanCell_num_nonneg]
  · rw [hr]
    have hv : ratOfParsed (123450, 2) = (1234.5 : Rat) := by
      norm_num [ratOfParsed]
    rw [show Option.map ratOfParsed (some (123450, 2)) =
          some (ratOfParsed (123450, 2)) from rfl, hv]

/-- Concrete instantiation of the idempotence part on a messy string. -/
theorem clean_numeric_idempotent_witness :
    cleanCell (embedCell (cleanCell (Cell.str "abc7.5def"))) =
      cleanCell (Cell.str "abc7.5def") :=
  clean_numeric_idempotent_and_examples.1 (Cell.str "abc7.5def")

/-- Counterexample to C4 as stated: the normalizer is NOT a no-op on the
already-numeric value -5, because the character strip deletes the minus
sign; the result is 5. -/
theorem clean_numeric_negative_not_noop :
    cleanCell (Cell.num (-5) 0) = some (5, 0) ∧
    Option.map ratOfParsed (cleanCell (Cell.num (-5) 0)) = some (5 : Rat) ∧
    (5 : Rat) ≠ (-5 : Rat) := by
  have h5 : cleanCell (Cell.num (-5) 0) = some (5, 0) := by decide
  refine ⟨h5, ?_, by norm_num⟩
  rw [h5]
  have hv : ratOfParsed (5, 0) = (5 : Rat) := by
    norm_num [ratOfParsed]
  rw [show Option.map ratOfParsed (some (5, 0)) =
        some (ratOfParsed (5, 0)) from rfl, hv]

/- ----------------------------------------------------------------
   Analysis router (the if/elif/else keyword dispatch in
   LocalLLM.generate) and the entity extraction of _analyze_taxes.
   ---------------------------------------------------------------- -/

/-- The closed set of analysis intents. -/
inductive Intent where
  | tax
  | comparison
  | summary
deriving DecidableEq, Repr

/-- Tax branch test of generate: tax or duties occurs in the lowered
question. -/
def hasTaxKw (q : String) : Bool :=
  strIn "tax" (lowerStr q) || strIn "duties" (lowerStr q)

/-- Comparison branch test of generate: compare, rainfall and crop all
occur in the lowered question. -/
def hasCmpKw (q : String) : Bool :=
  strIn "compare" (lowerStr q) && strIn "rainfall" (lowerStr q) &&
    strIn "crop" (lowerStr q)

/-- The keyword dispatch of LocalLLM.generate as an intent function. -/
def route (q : String) : Intent :=
  if hasTaxKw q then Intent.tax
  else if hasCmpKw q then Intent.comparison
  else Intent.summary

/-- Column selection of _analyze_taxes line 50: keep columns whose name
contains 2016, 2017 or 2018 as a substring; the question is not consulted. -/
def colsToCheck (cols : List String) : List String :=
  cols.filter (fun c => strIn "2016" c || strIn "2017" c || strIn "2018" c)

/-- State extraction of _analyze_taxes: Telangana and Karnataka as
substring checks on the lowered question, defaulting to both. -/
def statesToCheck (q : String) : List String :=
  let s := (if strIn "telangana" (lowerStr q) then ["Telangana"] else []) ++
    (if strIn "karnataka" (lowerStr q) then ["Karnataka"] else [])
  if s.isEmpty then ["Telangana", "Karnataka"] else s

/- ----------------------------------------------------------------
   DataFrame primitives used by the routines.
   ---------------------------------------------------------------- -/

/-- Cell of row r in the column named c (rows are indexed by the column
position in the frame). -/
def cellAt (df : Df) (r : List Cell) (c : String) : Cell :=
  r.getD (df.cols.indexOf c) Cell.null

/-- Column values of a frame. -/
def getColCells (df : Df) (c : String) : List Cell :=
  df.rows.map (fun r => cellAt df r c)

/-- Overwrite one column of a frame with new values (the assignment
df[col] = series). -/
def setCol (df : Df) (c : String) (vs : List Cell) : Df :=
  ⟨df.cols, (df.rows.zip vs).map (fun p => p.1.set (df.cols.indexOf c) p.2)⟩

/-- Projection of a row of df onto a list of column names
(df_filtered[final_cols] row-wise). -/
def projectRow (df : Df) (names : List String) (r : List Cell) : List Cell :=
  names.map (fun c => cellAt df r c)

/-- Python separator join. -/
def joinSep (sep : String) : List String → String
  | [] => ""
  | [x] => x
  | x :: y :: rest => x ++ sep ++ joinSep sep (y :: rest)

/-- One markdown table line. -/
def mdRow (cells : List String) : String :=
  "| " ++ joinSep " | " cells ++ " |"

/-- Markdown rendering of a frame (a simple header-plus-rows pipe table
standing for DataFrame.to_markdown). -/
def toMarkdown (df : Df) : String :=
  joinSep "\n" (mdRow df.cols :: df.rows.map (fun r => mdRow (r.map cellToStr)))

/-- First five rows (DataFrame.head()). -/
def dfHead (df : Df) : Df := ⟨df.cols, df.rows.take 5⟩

/- ----------------------------------------------------------------
   Analysis routines.
   ---------------------------------------------------------------- -/

/-- The isin test of _analyze_taxes: the state_name cell of the row is a
string equal to one of the requested states. -/
def rowStateHit (df : Df) (states : List String) (r : List Cell) : Bool :=
  match cellAt df r "state_name" with
  | Cell.str s => states.contains s
  | _ => false

/-- The displayed table of _analyze_taxes: rows filtered to the requested
states, projected onto state_name plus the year columns.  set_index only
moves state_name into the row index of the rendering, so the table keeps
it as the first column here. -/
def taxTable (df : Df) (states : List String) : Df :=
  ⟨"state_name" :: colsToCheck df.cols,
   (df.rows.filter (rowStateHit df states)).map
     (projectRow df ("state_name" :: colsToCheck df.cols))⟩

/-- The no-matching-rows message of _analyze_taxes (it names the REQUESTED
states). -/
def noDataMsg (states : List String) : String :=
  "I found the dataset, but could not find data for " ++
    joinSep ", " states ++ "."

/-- LocalLLM._analyze_taxes with the states already extracted from the
question. -/
def analyzeTaxesWith (df : Df) (states : List String) : String :=
  if "state_name" ∈ df.cols then
    if (df.rows.filter (rowStateHit df states)).isEmpty then
      noDataMsg states
    else
      "**Share of Union Taxes and Duties (in Rs. Crore) for " ++
        joinSep ", " states ++ ":**\n\n" ++ toMarkdown (taxTable df states)
  else
    "Could not find the required \x27state_name\x27 column in the dataset. Available columns: "
      ++ joinSep ", " df.cols

/-- LocalLLM._analyze_taxes. -/
def analyzeTaxes (df : Df) (q : String) : String :=
  analyzeTaxesWith df (statesToCheck q)

/-- LocalLLM._default_summary. -/
def defaultSummary (df : Df) (title : String) : String :=
  "I have successfully retrieved the dataset **\x27" ++ title ++
    "\x27**. Here is a summary of the first 5 rows:\n\n" ++
    toMarkdown (dfHead df) ++ "\n"

/-- C5: the router is total and deterministic (a function into the three
intents), checks tax keywords first, then the comparison conjunction,
otherwise falls back to the generic summary; with the two documented
example routes. -/
theorem router_total_deterministic_priority :
    (∀ q : String,
      (route q = Intent.tax ∨ route q = Intent.comparison ∨
        route q = Intent.summary) ∧
      (hasTaxKw q = true → route q = Intent.tax) ∧
      (hasTaxKw q = false → hasCmpKw q = true → route q = Intent.comparison) ∧
      (hasTaxKw q = false → hasCmpKw q = false → route q = Intent.summary)) ∧
    route "Share of Union Taxes in Telangana" = Intent.tax ∧
    route "compare rainfall across crop regions" = Intent.comparison := by
  refine ⟨?_, by decide, by decide⟩
  intro q
  unfold route
  cases ht : hasTaxKw q <;> cases hc : hasCmpKw q <;> simp

/-- Concrete instantiation of the router theorem on a generic question. -/
theorem router_total_deterministic_priority_witness :
    route "hello there" = Intent.summary :=
  ((router_total_deterministic_priority.1 "hello there").2.2.2
    (by decide) (by decide))

/- ----------------------------------------------------------------
   Substring facts used to show which names a message mentions.
   ---------------------------------------------------------------- -/

lemma strInAux_iff (n l : List Char) :
    strInAux n l = true ↔ ∃ a b, l = a ++ n ++ b := by
  induction l with
  | nil =>
    constructor
    · intro h
      have hn : n = [] := by
        have : n.isEmpty = true := h
        exact List.isEmpty_iff.mp this
      exact ⟨[], [], by rw [hn]; rfl⟩
    · rintro ⟨a, b, hab⟩
      have := List.append_eq_nil.mp (List.append_eq_nil.mp hab.symm).1
      show n.isEmpty = true
      rw [this.2]
      rfl
  | cons c t ih =>
    show (n.isPrefixOf (c :: t) || strInAux n t) = true ↔ _
    rw [Bool.or_eq_true, ih, List.isPrefixOf_iff_prefix]
    constructor
    · rintro (⟨b, hb⟩ | ⟨a, b, hab⟩)
      · exact ⟨[], b, by rw [← hb]; rfl⟩
      · exact ⟨c :: a, b, by rw [List.cons_append, List.cons_append, ← hab]⟩
    · rintro ⟨a, b, hab⟩
      cases a with
      | nil =>
        left
        exact ⟨b, by rw [List.nil_append] at hab; rw [← hab]⟩
      | cons x xs =>
        right
        rw [List.cons_append, List.cons_append] at hab
        injection hab with h1 h2
        exact ⟨xs, b, h2⟩

/-- A member of a joined list occurs in the join as a substring, in
decomposed form. -/
lemma join_mem_decomp (s : String) : ∀ l : List String, s ∈ l →
    ∃ a b, (joinSep ", " l).data = a ++ s.data ++ b := by
  intro l
  induction l with
  | nil => intro h; exact absurd h (List.not_mem_nil s)
  | cons x rest ih =>
    intro h
    rcases List.mem_cons.mp h with rfl | hmem
    · cases rest with
      | nil => exact ⟨[], [], by simp [joinSep]⟩
      | cons y t =>
        refine ⟨[], (", " ++ joinSep ", " (y :: t)).data, ?_⟩
        simp only [joinSep]
        simp [String.data_append, List.append_assoc]
    · cases rest with
      | nil => exact absurd hmem (List.not_mem_nil s)
      | cons y t =>
        obtain ⟨a, b, hab⟩ := ih hmem
        refine ⟨x.data ++ (", ").data ++ a, b, ?_⟩
        simp only [joinSep]
        simp [String.data_append, hab, List.append_assoc]

/-- C6 (amended): when the state filter of the tax routine matches no
rows, the routine returns exactly the no-data message, which names every
REQUESTED state (the source lists states_to_check, not the state values
present in the dataset), and contains no table. -/
theorem tax_empty_filter_lists_requested_states (df : Df) (q : String)
    (h1 : "state_name" ∈ df.cols)
    (h2 : df.rows.filter (rowStateHit df (statesToCheck q)) = []) :
    analyzeTaxes df q = noDataMsg (statesToCheck q) ∧
    ∀ s ∈ statesToCheck q, strIn s (noDataMsg (statesToCheck q)) = true := by
  constructor
  · unfold analyzeTaxes analyzeTaxesWith
    rw [if_pos h1, h2]
    rfl
  · intro s hs
    obtain ⟨a, b, hab⟩ := join_mem_decomp s (statesToCheck q) hs
    show strInAux s.data (noDataMsg (statesToCheck q)).data = true
    unfold noDataMsg
    rw [String.data_append, String.data_append, hab]
    exact (strInAux_iff _ _).mpr
      ⟨("I found the dataset, but could not find data for ").data ++ a,
        b ++ (".").data, by simp [List.append_assoc]⟩

/-- Concrete instantiation: a dataset holding only Kerala rows with the
default requested states. -/
theorem tax_empty_filter_lists_requested_states_witness :
    analyzeTaxes ⟨["state_name"], [[Cell.str "Kerala"]]⟩ "tax" =
      noDataMsg (statesToCheck "tax") ∧
    ∀ s ∈ statesToCheck "tax",
      strIn s (noDataMsg (statesToCheck "tax")) = true :=
  tax_empty_filter_lists_requested_states ⟨["state_name"], [[Cell.str "Kerala"]]⟩
    "tax" (by decide) (by decide)

/-- Counterexample to C6 as stated: with only Kerala present and no
matching row, the response does NOT enumerate the present state values:
Kerala never occurs in it; it names the requested defaults instead. -/
theorem tax_empty_filter_not_listing_present_states :
    analyzeTaxes ⟨["state_name"], [[Cell.str "Kerala"]]⟩ "tax" =
      "I found the dataset, but could not find data for Telangana, Karnataka." ∧
    strIn "Kerala"
      (analyzeTaxes ⟨["state_name"], [[Cell.str "Kerala"]]⟩ "tax") = false := by
  constructor <;> decide

lemma contains_iff_mem (l : List String) (s : String) :
    l.contains s = true ↔ s ∈ l := by
  simp [List.contains]

/-- C1 (amended): the tax routine filters rows to exactly the requested
state set and projects them onto the state column plus the year columns,
copying cell values raw: every output column is an input column (nothing
derived is appended) and no normalization happens. -/
theorem tax_table_filters_states_raw_values (df : Df) (q : String)
    (h1 : "state_name" ∈ df.cols) :
    (taxTable df (statesToCheck q)).cols = "state_name" :: colsToCheck df.cols ∧
    (∀ c ∈ (taxTable df (statesToCheck q)).cols, c ∈ df.cols) ∧
    (∀ row ∈ (taxTable df (statesToCheck q)).rows, ∃ r ∈ df.rows,
      (∃ s, cellAt df r "state_name" = Cell.str s ∧ s ∈ statesToCheck q) ∧
      row = projectRow df ("state_name" :: colsToCheck df.cols) r) ∧
    (∀ r ∈ df.rows, ∀ s, cellAt df r "state_name" = Cell.str s →
      s ∈ statesToCheck q →
      projectRow df ("state_name" :: colsToCheck df.cols) r ∈
        (taxTable df (statesToCheck q)).rows) := by
  refine ⟨rfl, ?_, ?_, ?_⟩
  · intro c hc
    rcases List.mem_cons.mp hc with rfl | hc2
    · exact h1
    · exact List.mem_of_mem_filter hc2
  · intro row hrow
    obtain ⟨r, hrf, hproj⟩ := List.mem_map.mp hrow
    obtain ⟨hr, hhit⟩ := List.mem_filter.mp hrf
    refine ⟨r, hr, ?_, hproj.symm⟩
    unfold rowStateHit at hhit
    rcases hcell : cellAt df r "state_name" with ⟨m, e⟩ | s | _ <;>
      rw [hcell] at hhit
    · exact Bool.noConfusion hhit
    · exact ⟨s, rfl, (contains_iff_mem _ s).mp hhit⟩
    · exact Bool.noConfusion hhit
  · intro r hr s hcell hs
    apply List.mem_map.mpr
    refine ⟨r, List.mem_filter.mpr ⟨hr, ?_⟩, rfl⟩
    unfold rowStateHit
    rw [hcell]
    exact (contains_iff_mem _ s).mpr hs

/-- Two-state example frame for the tax routine. -/
def dfTaxExample : Df :=
  ⟨["state_name", "2016-17", "2017-18"],
   [[Cell.str "Telangana", Cell.num 1 0, Cell.num 2 0],
    [Cell.str "Karnataka", Cell.num 10 0, Cell.num 20 0]]⟩

/-- Concrete instantiation: the Telangana row survives the filter and is
projected raw into the displayed table. -/
theorem tax_table_filters_states_raw_values_witness :
    projectRow dfTaxExample ("state_name" :: colsToCheck dfTaxExample.cols)
        [Cell.str "Telangana", Cell.num 1 0, Cell.num 2 0] ∈
      (taxTable dfTaxExample (statesToCheck "tax")).rows :=
  (tax_table_filters_states_raw_values dfTaxExample "tax" (by decide)).2.2.2
    [Cell.str "Telangana", Cell.num 1 0, Cell.num 2 0] (by decide)
    "Telangana" (by decide) (by decide)

/-- Counterexample to C1 as stated: on a frame with both requested states
and numeric year columns 2016-17 and 2017-18, the displayed table keeps
exactly the original three columns, with raw values, and NO column equals
the row-wise sums 3 and 30 of the two year columns: no computed total is
appended. -/
theorem tax_output_lacks_total_column :
    (taxTable dfTaxExample (statesToCheck "tax")).cols =
      ["state_name", "2016-17", "2017-18"] ∧
    (taxTable dfTaxExample (statesToCheck "tax")).rows =
      [[Cell.str "Telangana", Cell.num 1 0, Cell.num 2 0],
       [Cell.str "Karnataka", Cell.num 10 0, Cell.num 20 0]] ∧
    ¬ ∃ c ∈ (taxTable dfTaxExample (statesToCheck "tax")).cols,
        (getColCells (taxTable dfTaxExample (statesToCheck "tax")) c).map cellRat =
          [some (3 : Rat), some (30 : Rat)] := by
  refine ⟨by decide, by decide, ?_⟩
  rintro ⟨c, hc, heq⟩
  have hcols : (taxTable dfTaxExample (statesToCheck "tax")).cols =
      ["state_name", "2016-17", "2017-18"] := by decide
  rw [hcols] at hc
  fin_cases hc
  · have h1 : getColCells (taxTable dfTaxExample (statesToCheck "tax"))
        "state_name" = [Cell.str "Telangana", Cell.str "Karnataka"] := by decide
    rw [h1] at heq
    simp [cellRat] at heq
  · have h2 : getColCells (taxTable dfTaxExample (statesToCheck "tax"))
        "2016-17" = [Cell.num 1 0, Cell.num 10 0] := by decide
    rw [h2] at heq
    simp [cellRat] at heq
  · have h3 : getColCells (taxTable dfTaxExample (statesToCheck "tax"))
        "2017-18" = [Cell.num 2 0, Cell.num 20 0] := by decide
    rw [h3] at heq
    simp [cellRat] at heq

/- ----------------------------------------------------------------
   Fiscal years: the spec describes an extractor over the question text;
   the source instead hardcodes substring checks on COLUMN NAMES.
   ---------------------------------------------------------------- -/

/-- Scan for 4-digit tokens (the findall of a 4-digit pattern). -/
def find4 : List Char → List Nat
  | c1 :: c2 :: c3 :: c4 :: rest =>
    if c1.isDigit && c2.isDigit && c3.isDigit && c4.isDigit then
      digitsVal [c1, c2, c3, c4] :: find4 rest
    else find4 (c2 :: c3 :: c4 :: rest)
  | _ => []

/-- Fiscal-year label YYYY-(YY+1). -/
def yearLabel (y : Nat) : String :=
  String.mk (natDigits y) ++ "-" ++
    String.mk (padZeros 2 (natDigits (y % 100 + 1)))

/-- Modelled from the spec: extract_fiscal_years, absent from the source;
find every 4-digit year token of the question, label each as YYYY-(YY+1),
and fall back to the default pair when none is found.  Used only to
compare the specified behaviour against what the source does. -/
def specExtractFiscalYears (q : String) : List String :=
  let ys := find4 q.data
  if ys.isEmpty then ["2016-17", "2017-18"] else ys.map yearLabel

/-- C7 (amended): the source has no fiscal-year extractor; the target
year columns are chosen purely from column NAMES (kept iff the name
contains 2016, 2017 or 2018), and the question influences the tax routine
only through the extracted states, never through its year tokens. -/
theorem tax_year_columns_from_names_not_question :
    (∀ (cols : List String) (c : String),
      c ∈ colsToCheck cols ↔ c ∈ cols ∧
        (strIn "2016" c || strIn "2017" c || strIn "2018" c) = true) ∧
    (∀ (df : Df) (q r : String), statesToCheck q = statesToCheck r →
      analyzeTaxes df q = analyzeTaxes df r) := by
  constructor
  · intro cols c
    unfold colsToCheck
    exact List.mem_filter
  · intro df q r h
    unfold analyzeTaxes
    rw [h]

/-- Single-state frame whose only year column is 2018-19. -/
def dfYearExample : Df :=
  ⟨["state_name", "2018-19"], [[Cell.str "Telangana", Cell.num 7 0]]⟩

/-- Concrete instantiation: questions naming different years produce the
same tax answer when they extract the same states. -/
theorem tax_year_columns_from_names_not_question_witness :
    analyzeTaxes dfYearExample "tax 2016" = analyzeTaxes dfYearExample "tax 2023" :=
  tax_year_columns_from_names_not_question.2 dfYearExample
    "tax 2016" "tax 2023" (by decide)

/-- Counterexample to C7 as stated: the specified extractor maps the two
questions to different fiscal-year label sets, yet the tax analysis output
is identical for both and displays the 2018-19 column that neither
question mentions: year targeting ignores the question text. -/
theorem fiscal_year_extractor_absent :
    specExtractFiscalYears "tax 2016" = ["2016-17"] ∧
    specExtractFiscalYears "tax 2023" = ["2023-24"] ∧
    specExtractFiscalYears "tax 2016" ≠ specExtractFiscalYears "tax 2023" ∧
    colsToCheck dfYearExample.cols = ["2018-19"] ∧
    analyzeTaxes dfYearExample "tax 2016" = analyzeTaxes dfYearExample "tax 2023" ∧
    strIn "2018-19" (analyzeTaxes dfYearExample "tax 2016") = true := by
  refine ⟨by decide, by decide, by decide, by decide, by decide, by decide⟩

/- ----------------------------------------------------------------
   Rainfall comparison routine (LocalLLM._analyze_comparison).
   ---------------------------------------------------------------- -/

/-- Two decimal places rendering of the format spec .2f (idealised on
exact decimals: round half away handled by the generic round). -/
def fmt2 (q : Rat) : String := String.mk (renderChars (round (q * 100)) 2)

/-- One bullet line of the rainfall analysis: mean of the (normalized)
rainfall cells of the rows whose state cell equals the key, missing cells
excluded as the pandas mean does; an all-missing group renders as nan. -/
def meanLine (sc rc : String) (df2 : Df) (k : Cell) : String :=
  let grp := df2.rows.filter (fun r => cellAt df2 r sc == k)
  let vs := (grp.map (fun r => cellAt df2 r rc)).filterMap cellRat
  "* **" ++ cellToStr k ++ "**: " ++
    (if vs.isEmpty then "nan" else fmt2 (vs.sum / (vs.length : Rat))) ++
    " mm (average)\n"

/-- LocalLLM._analyze_comparison.  Returns the response fragment together
with the frame, because the source overwrites df[rain_col] in place before
grouping.  Both resolver results are non-None exactly when the Python
truthiness test passes (a matched column name is never empty, since every
alias is non-empty).  Group keys are taken in first-occurrence order;
nothing proved here depends on the group ordering of the rendering. -/
def analyzeComparison (df : Df) : String × Df :=
  match findCol df "rainfall", findCol df "state" with
  | some rc, some sc =>
    let df2 := setCol df rc
      ((getColCells df rc).map (fun cl => embedCell (cleanCell cl)))
    let keys := (getColCells df2 sc).eraseDups
    ("**Average Annual Rainfall Analysis:**\n" ++
      String.join (keys.map (meanLine sc rc df2)), df2)
  | _, _ => ("", df)

/-- C8: when the rainfall or the state column does not resolve, the
comparison routine contributes the empty string (and by totality raises
nothing). -/
theorem comparison_unresolved_empty (df : Df)
    (h : findCol df "rainfall" = none ∨ findCol df "state" = none) :
    (analyzeComparison df).1 = "" ∧ (analyzeComparison df).2 = df := by
  unfold analyzeComparison
  rcases h1 : findCol df "rainfall" with _ | rc <;>
    rcases h2 : findCol df "state" with _ | sc
  · exact ⟨rfl, rfl⟩
  · exact ⟨rfl, rfl⟩
  · exact ⟨rfl, rfl⟩
  · exfalso
    rcases h with h | h
    · rw [h1] at h; exact Option.noConfusion h
    · rw [h2] at h; exact Option.noConfusion h

/-- Concrete instantiation: a frame with neither column. -/
theorem comparison_unresolved_empty_witness :
    (analyzeComparison ⟨["foo"], []⟩).1 = "" ∧
    (analyzeComparison ⟨["foo"], []⟩).2 = ⟨["foo"], []⟩ :=
  comparison_unresolved_empty ⟨["foo"], []⟩ (Or.inl (by decide))

/- List lemmas for the in-place column overwrite. -/

lemma listGetDSet (l : List Cell) (i : Nat) (v : Cell) (h : i < l.length) :
    (l.set i v).getD i Cell.null = v := by
  induction l generalizing i with
  | nil => simp at h
  | cons x xs ih =>
    cases i with
    | zero => rfl
    | succ j =>
      have hj : j < xs.length := by simpa using h
      show (xs.set j v).getD j Cell.null = v
      exact ih j hj

lemma getCol_set_rows (idx : Nat) (rows : List (List Cell)) :
    ∀ vs : List Cell, (∀ r ∈ rows, idx < r.length) → vs.length = rows.length →
      ((rows.zip vs).map (fun p => p.1.set idx p.2)).map
        (fun r => r.getD idx Cell.null) = vs := by
  induction rows with
  | nil =>
    intro vs h hlen
    cases vs with
    | nil => rfl
    | cons v vt => simp at hlen
  | cons r rs ih =>
    intro vs h hlen
    cases vs with
    | nil => simp at hlen
    | cons v vt =>
      simp only [List.zip_cons_cons, List.map_cons]
      rw [listGetDSet r idx v (h r (List.mem_cons_self r rs)),
        ih vt (fun x hx => h x (List.mem_cons_of_mem r hx)) (by simpa using hlen)]

lemma findCol_mem (df : Df) (fld r : String) (h : findCol df fld = some r) :
    r ∈ df.cols :=
  ((findColAux_spec (aliasesFor fld) df.cols).2 r h).1

/-- C9: when both columns resolve, the comparison routine overwrites the
rainfall column of the frame with its normalized numeric values (all other
structure kept), and there is a frame it visibly changes, so the dataset
passed in is not in general left unchanged. -/
theorem comparison_overwrites_rainfall_column :
    (∀ (df : Df) (rc sc : String), df.WF →
      findCol df "rainfall" = some rc → findCol df "state" = some sc →
      (analyzeComparison df).2.cols = df.cols ∧
      getColCells (analyzeComparison df).2 rc =
        (getColCells df rc).map (fun cl => embedCell (cleanCell cl))) ∧
    (∃ df : Df, (analyzeComparison df).2 ≠ df) := by
  constructor
  · intro df rc sc hwf h1 h2
    have hred : (analyzeComparison df).2 = setCol df rc
        ((getColCells df rc).map (fun cl => embedCell (cleanCell cl))) := by
      unfold analyzeComparison
      rw [h1, h2]
    rw [hred]
    constructor
    · rfl
    · have hidx : df.cols.indexOf rc < df.cols.length :=
        List.indexOf_lt_length.mpr (findCol_mem df "rainfall" rc h1)
      exact getCol_set_rows (df.cols.indexOf rc) df.rows
        ((getColCells df rc).map (fun cl => embedCell (cleanCell cl)))
        (fun r hr => by rw [hwf r hr]; exact hidx)
        (by simp [getColCells])
  · exact ⟨⟨["state", "rainfall"], [[Cell.str "Kerala", Cell.str "₹10"]]⟩,
      by decide⟩

/-- Rain example frame: a messy rupee rainfall cell. -/
def dfRainExample : Df :=
  ⟨["state", "rainfall"], [[Cell.str "Kerala", Cell.str "₹10"]]⟩

/-- Concrete instantiation: the rupee string cell is replaced by the
parsed number 10. -/
theorem comparison_overwrites_rainfall_column_witness :
    (analyzeComparison dfRainExample).2.cols = dfRainExample.cols ∧
    getColCells (analyzeComparison dfRainExample).2 "rainfall" =
      (getColCells dfRainExample "rainfall").map
        (fun cl => embedCell (cleanCell cl)) :=
  comparison_overwrites_rainfall_column.1 dfRainExample "rainfall" "state"
    (by decide) (by decide) (by decide)

/- ----------------------------------------------------------------
   Top level generate (LocalLLM.generate) with its guard and citation.
   ---------------------------------------------------------------- -/

def errorLead : String := "I encountered an error during data synthesis. Error: "

/-- The citation line attached to every answer. -/
def citationOf (title rid : String) : String :=
  "**" ++ title ++ "** (Source: " ++ rid ++ ", data.gov.in)"

/-- The if/elif/else dispatch of generate, routing to the three routines;
faults raised inside a routine surface as Except.error. -/
def dispatchRoutine (q : String) (df : Df) (title : String) :
    Except String String :=
  match route q with
  | Intent.tax => Except.ok (analyzeTaxes df q)
  | Intent.comparison => Except.ok (analyzeComparison df).1
  | Intent.summary => Except.ok (defaultSummary df title)

/-- The try/except guard of generate, abstracted over the dispatched
routine so the guard can be stated for ANY fault the routine raises. -/
def generateWith (routine : String → Df → String → Except String String)
    (q : String) (df : Df) (title rid : String) : String × List String :=
  ((match routine q df title with
    | Except.ok r => r
    | Except.error e => errorLead ++ e ++ "\n\n" ++ defaultSummary df title),
   [citationOf title rid])

/-- LocalLLM.generate. -/
def generate (q : String) (df : Df) (title rid : String) : String × List String :=
  generateWith dispatchRoutine q df title rid

/-- C2: any fault raised inside a dispatched routine is caught by the
guard: the answer is the error text followed by the generic summary, the
citation still attached; generate is this guard applied to the actual
dispatch, and being a total function it propagates no exception. -/
theorem generate_guard_catches_routine_faults
    (routine : String → Df → String → Except String String)
    (q : String) (df : Df) (title rid e : String)
    (h : routine q df title = Except.error e) :
    generateWith routine q df title rid =
      (errorLead ++ e ++ "\n\n" ++ defaultSummary df title,
        [citationOf title rid]) ∧
    generate q df title rid = generateWith dispatchRoutine q df title rid := by
  constructor
  · unfold generateWith
    rw [h]
  · rfl

/-- Concrete instantiation with a routine that faults. -/
theorem generate_guard_catches_routine_faults_witness :
    generateWith (fun _ _ _ => Except.error "boom") "q" ⟨[], []⟩ "t" "r" =
      (errorLead ++ "boom" ++ "\n\n" ++ defaultSummary ⟨[], []⟩ "t",
        [citationOf "t" "r"]) :=
  (generate_guard_catches_routine_faults (fun _ _ _ => Except.error "boom")
    "q" ⟨[], []⟩ "t" "r" "boom" rfl).1

end Samarth
